import Mathlib

/-!
Verification development for the lhlgamehub data pipeline.

The repository scrapes Lakeshore Hockey League schedule/standings pages into
per-month CSV extracts, gates re-scraped extracts behind a normalize-and-compare
change check (`update_data.sh` / its gated variant), combines and dedupes the
extracts into `data/combined.csv` (`combine_dedupe.py`), converts that file to
`data/games.json` (`scripts/csv_to_json.mjs`), and serves it through a Next.js
API (`src/app/api/games/route.ts`) and UI (`SortableStandingsTable.tsx`,
`lib/standings.ts`).

This file gives a shallow embedding of that pipeline.  CSV rows are modelled as
association lists or records of strings; the string operations the scripts use
(`strip`/`trim`, `split`, `toLowerCase`, lexicographic comparison, integer
parsing) are re-implemented structurally over `List Char` so that every
definition evaluates inside the kernel.
-/

/-! ### String primitives

Executable models of the string operations used by the pipeline scripts.
`Char` comparisons come from its linear order (code-point order), matching
Python `str` comparison and the code-unit behaviour assumed for JS
`localeCompare` on this ASCII data set. -/

/-- Whitespace test covering the characters that occur in the scraped data;
models Python `str.strip()` / JS `String.prototype.trim()` boundaries. -/
def isWs (c : Char) : Bool :=
  c = ' ' || c = '\t' || c = '\n' || c = '\r'

/-- Strip leading and trailing whitespace (Python `.strip()`, JS `.trim()`). -/
def trimStr (s : String) : String :=
  ⟨((s.data.dropWhile isWs).reverse.dropWhile isWs).reverse⟩

/-- Lowercase an ASCII letter via an explicit table (JS `toLowerCase` on the
header names occurring in the standings CSV). -/
def lowerChar (c : Char) : Char :=
  ((([('A', 'a'), ('B', 'b'), ('C', 'c'), ('D', 'd'), ('E', 'e'), ('F', 'f'),
      ('G', 'g'), ('H', 'h'), ('I', 'i'), ('J', 'j'), ('K', 'k'), ('L', 'l'),
      ('M', 'm'), ('N', 'n'), ('O', 'o'), ('P', 'p'), ('Q', 'q'), ('R', 'r'),
      ('S', 's'), ('T', 't'), ('U', 'u'), ('V', 'v'), ('W', 'w'), ('X', 'x'),
      ('Y', 'y'), ('Z', 'z')] : List (Char × Char)).find?
      (fun p => p.1 = c)).map (fun p => p.2)).getD c

/-- Lowercase a string (JS `String.prototype.toLowerCase` on ASCII input). -/
def lowerStr (s : String) : String :=
  ⟨s.data.map lowerChar⟩

/-- Split a character list at every occurrence of `sep`. -/
def splitChars (sep : Char) : List Char → List (List Char)
  | [] => [[]]
  | c :: cs =>
    let rest := splitChars sep cs
    if c = sep then [] :: rest
    else
      match rest with
      | [] => [[c]]
      | h :: t => (c :: h) :: t

/-- Split a string on a single-character separator (models JS
`String.prototype.split` and `str.split` for the separators "," , " " and the
newline used by the pipeline). -/
def splitStr (sep : Char) (s : String) : List String :=
  (splitChars sep s.data).map (fun l => ⟨l⟩)

/-- Value of a decimal digit character, `none` for a non-digit. -/
def digitVal? (c : Char) : Option Nat :=
  if '0' ≤ c && c ≤ '9' then some (c.toNat - '0'.toNat) else none

/-- Parse a non-empty all-digit string as a natural number (models Python
`int(...)` on the day-of-month fragment, failing on malformed input). -/
def natOfStr? (s : String) : Option Nat :=
  match s.data with
  | [] => none
  | l => l.foldl (fun acc c => acc.bind (fun n => (digitVal? c).map (fun d => n * 10 + d))) (some 0)

/-- Strict lexicographic order on character lists: Python `str` comparison. -/
def charsLt : List Char → List Char → Bool
  | [], [] => false
  | [], _ :: _ => true
  | _ :: _, [] => false
  | a :: as, b :: bs => if a < b then true else if b < a then false else charsLt as bs

/-- Strict lexicographic order on strings by code point. -/
def strLtB (a b : String) : Bool :=
  charsLt a.data b.data

/-- Non-strict lexicographic order on string tuples (Python tuple comparison,
used for the sort keys of the normalization and dedup steps). -/
def tupleLe : List String → List String → Bool
  | [], _ => true
  | _ :: _, [] => false
  | a :: as, b :: bs => if strLtB a b then true else if strLtB b a then false else tupleLe as bs

/-! ### Change-Detection Gate (`normalize_csv_ignore_scraped_at` in the gated
update script)

A scraped CSV row is an association list from column names to raw cell values,
as produced by Python `csv.DictReader`.  `rowGet` models `(r.get(k) or "")`. -/

/-- One raw CSV row: column name to raw string value. -/
abbrev RawRow := List (String × String)

/-- `(r.get(k) or "")`: the value of column `k`, empty when absent. -/
def rowGet (r : RawRow) (k : String) : String :=
  ((r.find? (fun p => p.1 = k)).map (fun p => p.2)).getD ""

/-- The columns of a game extract, in the `FIELDNAMES` output order of
`normalize_csv_ignore_scraped_at`. -/
def GAME_FIELDNAMES : List String :=
  ["scraped_at", "date_text", "time", "away", "away_score", "home",
   "home_score", "game_code", "venue", "game_url"]

/-- The columns entering the normalization sort key `key(r)` — every game
column except the volatile `scraped_at`, in the order the script lists them. -/
def GAME_KEY_FIELDS : List String :=
  ["date_text", "time", "away", "home", "game_code", "venue", "game_url",
   "away_score", "home_score"]

/-- The sort key `key(r)` of `normalize_csv_ignore_scraped_at`: the trimmed
values of all columns except `scraped_at`. -/
def gameKey (r : RawRow) : List String :=
  [trimStr (rowGet r "date_text"), trimStr (rowGet r "time"),
   trimStr (rowGet r "away"), trimStr (rowGet r "home"),
   trimStr (rowGet r "game_code"), trimStr (rowGet r "venue"),
   trimStr (rowGet r "game_url"), trimStr (rowGet r "away_score"),
   trimStr (rowGet r "home_score")]

/-- The output row the normalizer writes for `r`: every field trimmed, in
`FIELDNAMES` order, with `scraped_at` blanked. -/
def normGameRow (r : RawRow) : List String :=
  ["", trimStr (rowGet r "date_text"), trimStr (rowGet r "time"),
   trimStr (rowGet r "away"), trimStr (rowGet r "away_score"),
   trimStr (rowGet r "home"), trimStr (rowGet r "home_score"),
   trimStr (rowGet r "game_code"), trimStr (rowGet r "venue"),
   trimStr (rowGet r "game_url")]

/-- Rearrangement of a sort key into the written output row; the normalized
output of a row is a function of its sort key alone. -/
def rowOfKey : List String → List String
  | [dt, tm, aw, hm, gc, vn, gu, ascore, hscore] =>
    ["", dt, tm, aw, ascore, hm, hscore, gc, vn, gu]
  | l => l

/-- `normalize_csv_ignore_scraped_at`: sort the rows by the content key
(Python `list.sort(key=key)` is a stable sort, modelled here by stable
insertion sort), then write each row trimmed with `scraped_at` blanked.  The
result models the normalized CSV body (the header line is constant). -/
def normalizeGames (rows : List RawRow) : List (List String) :=
  (rows.insertionSort (fun a b => tupleLe (gameKey a) (gameKey b) = true)).map normGameRow

/-- The compare block of the gated update script: `cmp -s` on the two
normalized files keeps the baseline untouched; any difference promotes the
candidate (`mv -f TMP OUT`). -/
def gameGate (cand base : List RawRow) : List RawRow :=
  if normalizeGames cand = normalizeGames base then base else cand

/-! ### Combine-step invocation (zero-extract handling)

Two variants of the orchestration exist.  The gated update script runs with
`shopt -s nullglob`, expands `exports/*.csv` into `CSV_FILES` and exits with
status 1 before invoking `combine_dedupe.py` when the array is empty.  The
plain `scripts/update_data.sh` has no `nullglob` and no guard: with zero
matches bash passes the pattern itself through to the combiner. -/

/-- Bash glob expansion without `nullglob`: an unmatched pattern stays as the
literal pattern text (the situation in `scripts/update_data.sh`). -/
def plainGlobExpand (files : List String) (pattern : String) : List String :=
  if files = [] then [pattern] else files

/-- Combine step of the gated update script: `CSV_FILES=(exports/*.csv)` under
`nullglob`, then `exit 1` when empty, else invoke the combiner on the files.
`Except.error` is the exit status of a run that never reaches the combiner;
`Except.ok` carries the argument list handed to `combine_dedupe.py`. -/
def gatedCombineStep (files : List String) : Except Nat (List String) :=
  if files.length = 0 then Except.error 1 else Except.ok files

/-- Combine step of `scripts/update_data.sh`: the glob is passed unguarded, so
the combiner is always invoked, on the unexpanded pattern if nothing matched. -/
def plainCombineStep (files : List String) : Except Nat (List String) :=
  Except.ok (plainGlobExpand files "exports/*.csv")

/-! ### Game records, season-year resolution, dedup, sort, combine

`combine_dedupe.py` itself is not among the sources (only its callers are),
so the resolver, deduplicator and combiner below are modelled from the spec;
the sort comparator is taken from `sortGamesAsc` in
`src/app/api/games/route.ts`, which the spec says orders the canonical output
as well. -/

/-- One game record: the extract columns
`scraped_at,date_text,time,away,away_score,home,home_score,game_code,venue,game_url`
plus the derived `game_date_iso` (empty when absent), as in the combined CSV
and the `Game` type of the API route. -/
structure GameRecord where
  scraped_at : String
  date_text : String
  time : String
  away : String
  away_score : String
  home : String
  home_score : String
  game_code : String
  venue : String
  game_url : String
  game_date_iso : String
deriving DecidableEq

/-- Month-name table for the display date fragments (`"Dec 03 (Wed)"`). -/
def MONTH_TABLE : List (String × Nat) :=
  [("Jan", 1), ("Feb", 2), ("Mar", 3), ("Apr", 4), ("May", 5), ("Jun", 6),
   ("Jul", 7), ("Aug", 8), ("Sep", 9), ("Oct", 10), ("Nov", 11), ("Dec", 12)]

/-- Month number of a month-name token, `none` when unparseable. -/
def parseMonthName (s : String) : Option Nat :=
  ((MONTH_TABLE.find? (fun p => p.1 = s)).map (fun p => p.2))

/-- Day-of-month parse: digits only and in range 1..31, else unresolvable. -/
def parseDayStr (s : String) : Option Nat :=
  (natOfStr? s).bind (fun d => if 1 ≤ d ∧ d ≤ 31 then some d else none)

/-- Modelled from the spec: `combine_dedupe.py` (the Season-Year Resolver) is
not among the sources.  §4.1: months October through December belong to
`season_start_year`, any month numerically less than October belongs to
`season_start_year + 1`. -/
def resolveSeasonYear (seasonStartYear month : Nat) : Nat :=
  if 10 ≤ month then seasonStartYear else seasonStartYear + 1

/-- Two-digit zero-padded rendering of a month or day number. -/
def twoDigit (n : Nat) : String :=
  if n < 10 then "0" ++ toString n else toString n

/-- Modelled from the spec: month/day extraction from a display date fragment
such as `"Dec 03 (Wed)"` — the first two whitespace-separated tokens are the
month name and the day; unparseable fragments yield `none`. -/
def parseFragment (dateText : String) : Option (Nat × Nat) :=
  match (splitStr ' ' (trimStr dateText)).filter (fun t => t ≠ "") with
  | mname :: dstr :: _ =>
    (parseMonthName mname).bind (fun m => (parseDayStr dstr).map (fun d => (m, d)))
  | _ => none

/-- Modelled from the spec: the Season-Year Resolver's output, an ISO date
`YYYY-MM-DD` from a date fragment and the season start year, absent when the
fragment cannot be parsed (§4.1). -/
def resolveDateIso (seasonStartYear : Nat) (dateText : String) : Option String :=
  (parseFragment dateText).map
    (fun md =>
      toString (resolveSeasonYear seasonStartYear md.1) ++ "-" ++
        twoDigit md.1 ++ "-" ++ twoDigit md.2)

/-- A record is "played" iff both scores are present and non-blank (§3;
`isPlayed` in the UI source). -/
def playedB (r : GameRecord) : Bool :=
  !(trimStr r.away_score = "") && !(trimStr r.home_score = "")

/-- Modelled from the spec: the Deduplicator's composite identity — primary
key `game_url` when non-blank, otherwise the fallback tuple
`(date_text, time, away, home, game_code, venue)` (§4.2, §3). -/
def identKey (r : GameRecord) : List String :=
  if trimStr r.game_url = "" then
    ["fallback", r.date_text, r.time, r.away, r.home, r.game_code, r.venue]
  else ["url", trimStr r.game_url]

/-- Modelled from the spec: the merge-preference rank of a record — played
beats unplayed, then the lexicographically later `scraped_at` wins, and (to
realize §4.2's determinism requirement) remaining ties are broken by a fixed
total order over all fields. -/
def rankOf (r : GameRecord) : List String :=
  [(if playedB r then "1" else "0"), r.scraped_at, r.date_text, r.time,
   r.away, r.away_score, r.home, r.home_score, r.game_code, r.venue,
   r.game_url, r.game_date_iso]

/-- Modelled from the spec: merge of two duplicate records — keep the one of
higher preference rank. -/
def pick (a b : GameRecord) : GameRecord :=
  if tupleLe (rankOf a) (rankOf b) then b else a

/-- Fold step accumulating the preferred record of a duplicate class. -/
def pickO (acc : Option GameRecord) (r : GameRecord) : Option GameRecord :=
  some ((acc.map (fun a => pick a r)).getD r)

/-- The merged record for identity `k` among `l`: the preference-maximal
record of the duplicates with that identity. -/
def bestFor (l : List GameRecord) (k : List String) : Option GameRecord :=
  (l.filter (fun r => identKey r = k)).foldl pickO none

/-- Modelled from the spec: the Deduplicator — one merged record per distinct
identity key (§4.2). -/
def dedupRecords (l : List GameRecord) : List GameRecord :=
  ((l.map identKey).dedup).filterMap (bestFor l)

/-- The comparator of `sortGamesAsc` (`src/app/api/games/route.ts`): ascending
ISO date with blank dates last, ties broken by the raw time string
(`localeCompare` modelled as code-point comparison). -/
def cmpGames (a b : GameRecord) : Int :=
  if trimStr a.game_date_iso = "" ∧ trimStr b.game_date_iso = "" then 0
  else if trimStr a.game_date_iso = "" then 1
  else if trimStr b.game_date_iso = "" then -1
  else if trimStr a.game_date_iso ≠ trimStr b.game_date_iso then
    (if strLtB (trimStr a.game_date_iso) (trimStr b.game_date_iso) then -1 else 1)
  else if strLtB (trimStr a.time) (trimStr b.time) then -1
  else if strLtB (trimStr b.time) (trimStr a.time) then 1
  else 0

/-- `cmpGames a b <= 0`, the ordering induced by the comparator. -/
def gameLeB (a b : GameRecord) : Bool :=
  decide (cmpGames a b ≤ 0)

/-- `sortGamesAsc`: a stable sort by the comparator (JS `Array.prototype.sort`
is stable, modelled here by stable insertion sort). -/
def sortGames (l : List GameRecord) : List GameRecord :=
  l.insertionSort (fun a b => gameLeB a b = true)

/-- Modelled from the spec: per-record date resolution inside the combiner —
`game_date_iso` is set from the display date, empty when unresolvable. -/
def resolveRecord (seasonStartYear : Nat) (r : GameRecord) : GameRecord :=
  { r with game_date_iso := (resolveDateIso seasonStartYear r.date_text).getD "" }

/-- Modelled from the spec: the Combiner/Sorter — load all extracts, resolve
dates, dedupe, sort (§4.3). -/
def combinePipeline (seasonStartYear : Nat) (extracts : List (List GameRecord)) :
    List GameRecord :=
  sortGames (dedupRecords ((extracts.flatten).map (resolveRecord seasonStartYear)))

/-- One run of the combine step: the canonical output file is rewritten from
scratch (`--out data/combined.csv` truncates), so the previous canonical
content does not enter the result. -/
def runCombineStep (seasonStartYear : Nat) (extracts : List (List GameRecord))
    (_prevCanonical : Option (List GameRecord)) : List GameRecord :=
  combinePipeline seasonStartYear extracts

/-! ### CSV-to-JSON conversion (`scripts/csv_to_json.mjs`) -/

/-- The conversion step: Papa-parse the combined CSV; if the parser reports
any error the process exits with status 1, otherwise the parsed rows are
written to `games.json` (a full overwrite). -/
def csvToJson (parseErrors : List String) (rows : List GameRecord) :
    Except Nat (List GameRecord) :=
  if parseErrors = [] then Except.ok rows else Except.error 1

/-! ### Games API (`src/app/api/games/route.ts`) -/

/-- `pattern` occurs at the head of `text`. -/
def leadsWith : List Char → List Char → Bool
  | [], _ => true
  | _ :: _, [] => false
  | p :: ps, t :: ts => p = t && leadsWith ps ts

/-- `pattern` occurs somewhere in `text` (JS `String.prototype.includes`). -/
def hasSubChars (pat : List Char) : List Char → Bool
  | [] => leadsWith pat []
  | c :: ts => leadsWith pat (c :: ts) || hasSubChars pat ts

/-- Substring containment on strings. -/
def containsSub (text pat : String) : Bool :=
  hasSubChars pat.data text.data

/-- The JSON body of the games API: a list of games and the most recent
`scraped_at` among them (`null` when none). -/
structure GamesResponse where
  games : List GameRecord
  lastUpdated : Option String
deriving DecidableEq

/-- The `lastUpdated` reduction of the GET handler: latest non-empty
`scraped_at` under string comparison, starting from the empty string. -/
def latestScrapedAt (games : List GameRecord) : String :=
  games.foldl
    (fun latest g =>
      if g.scraped_at = "" then latest
      else if latest = "" ∨ strLtB latest g.scraped_at then g.scraped_at
      else latest) ""

/-- The GET handler: `all=1` returns everything, a non-blank `team` returns
the case-insensitive substring matches on either team name, anything else
returns the empty list; the selection is then sorted and `lastUpdated`
computed over it. -/
def getGames (dataset : List GameRecord) (teamParam allParam : Option String) :
    GamesResponse :=
  let games :=
    if trimStr (allParam.getD "") = "1" then dataset
    else if trimStr (teamParam.getD "") ≠ "" then
      dataset.filter
        (fun g =>
          containsSub (lowerStr g.away) (lowerStr (trimStr (teamParam.getD ""))) ||
          containsSub (lowerStr g.home) (lowerStr (trimStr (teamParam.getD ""))))
    else []
  let sorted := sortGames games
  { games := sorted
    lastUpdated :=
      if latestScrapedAt sorted = "" then none else some (latestScrapedAt sorted) }

/-! ### Standings loader (`src/lib/standings.ts`) -/

/-- One league-table row as typed by `StandingRow` in `lib/standings.ts`. -/
structure StandingRow where
  scraped_at : String
  team : String
  gp : String
  w : String
  l : String
  t : String
  pts : String
  gf : String
  ga : String
  l10 : String
  strk : String
deriving DecidableEq

/-- `getValue` of `parseRow`: the trimmed cell under the header's column
index, empty when the header is absent or the row is short. -/
def getColValue (columns headers : List String) (col : String) : String :=
  match headers.findIdx? (fun h => h = col) with
  | none => ""
  | some i => ((columns.get? i).map trimStr).getD ""

/-- `parseRow`: build a `StandingRow` from one line's cells and the header
index. -/
def parseStandingRow (columns headers : List String) : StandingRow :=
  { scraped_at := getColValue columns headers "scraped_at"
    team := getColValue columns headers "team"
    gp := getColValue columns headers "gp"
    w := getColValue columns headers "w"
    l := getColValue columns headers "l"
    t := getColValue columns headers "t"
    pts := getColValue columns headers "pts"
    gf := getColValue columns headers "gf"
    ga := getColValue columns headers "ga"
    l10 := getColValue columns headers "l10"
    strk := getColValue columns headers "strk" }

/-- The line preprocessing of `loadStandings`: split on newlines, trim every
line, drop empties. -/
def standLines (raw : String) : List String :=
  ((splitStr '\n' raw).map trimStr).filter (fun l => l ≠ "")

/-- `loadStandings`: an unreadable file (the `catch` branch) or a file with at
most one non-empty line yields `[]`; otherwise each non-header line becomes
one `StandingRow` through `parseRow` with lowercased trimmed headers. -/
def loadStandings (file : Except String String) : List StandingRow :=
  match file with
  | Except.error _ => []
  | Except.ok raw =>
    match standLines raw with
    | [] => []
    | hd :: rest =>
      if rest = [] then []
      else
        rest.map
          (fun line =>
            parseStandingRow (splitStr ',' line)
              ((splitStr ',' hd).map (fun v => lowerStr (trimStr v))))

/-! ### Concrete sample data used by the witnesses -/

/-- A raw extract row of an upcoming game. -/
def rawRowA : RawRow :=
  [("scraped_at", "2025-11-01T09:00:00"), ("date_text", "Nov 08 (Sat)"),
   ("time", "7:00 PM"), ("away", "Whitby Wildcats"), ("away_score", ""),
   ("home", "Oshawa Generals"), ("home_score", ""), ("game_code", "1234"),
   ("venue", "Rink A"), ("game_url", "https://l/g/1")]

/-- A second raw extract row. -/
def rawRowB : RawRow :=
  [("scraped_at", "2025-11-01T09:00:00"), ("date_text", "Nov 09 (Sun)"),
   ("time", "2:00 PM"), ("away", "Belleville Bulls"), ("away_score", ""),
   ("home", "Whitby Wildcats"), ("home_score", ""), ("game_code", "1235"),
   ("venue", "Rink B"), ("game_url", "https://l/g/2")]

/-- `rawRowA` re-scraped later: only `scraped_at` differs. -/
def rawRowA2 : RawRow :=
  [("scraped_at", "2025-11-02T09:30:00"), ("date_text", "Nov 08 (Sat)"),
   ("time", "7:00 PM"), ("away", "Whitby Wildcats"), ("away_score", ""),
   ("home", "Oshawa Generals"), ("home_score", ""), ("game_code", "1234"),
   ("venue", "Rink A"), ("game_url", "https://l/g/1")]

/-- `rawRowB` re-scraped later: only `scraped_at` differs. -/
def rawRowB2 : RawRow :=
  [("scraped_at", "2025-11-02T09:30:00"), ("date_text", "Nov 09 (Sun)"),
   ("time", "2:00 PM"), ("away", "Belleville Bulls"), ("away_score", ""),
   ("home", "Whitby Wildcats"), ("home_score", ""), ("game_code", "1235"),
   ("venue", "Rink B"), ("game_url", "https://l/g/2")]

/-- An upcoming (blank-score) record of game `g/1`. -/
def recUpcoming : GameRecord :=
  ⟨"2025-11-01T09:00:00", "Nov 08 (Sat)", "7:00 PM", "Whitby Wildcats", "",
   "Oshawa Generals", "", "1234", "Rink A", "https://l/g/1", ""⟩

/-- The same game `g/1` after it was played, scraped later, with scores. -/
def recFinal : GameRecord :=
  ⟨"2025-11-09T09:00:00", "Nov 08 (Sat)", "7:00 PM", "Whitby Wildcats", "3",
   "Oshawa Generals", "2", "1234", "Rink A", "https://l/g/1", ""⟩

/-! ### Order lemmas for the string primitives -/

theorem charsLt_irrefl : ∀ l : List Char, charsLt l l = false := by
  intro l
  induction l with
  | nil => rfl
  | cons a as ih => simp [charsLt, lt_irrefl, ih]

theorem charsLt_eq_of_not : ∀ {l₁ l₂ : List Char},
    charsLt l₁ l₂ = false → charsLt l₂ l₁ = false → l₁ = l₂ := by
  intro l₁
  induction l₁ with
  | nil =>
    intro l₂ h₁ _
    cases l₂ with
    | nil => rfl
    | cons b bs => simp [charsLt] at h₁
  | cons a as ih =>
    intro l₂ h₁ h₂
    cases l₂ with
    | nil => simp [charsLt] at h₂
    | cons b bs =>
      rcases lt_trichotomy a b with hab | hab | hab
      · simp [charsLt, hab] at h₁
      · subst hab
        simp [charsLt, lt_irrefl] at h₁ h₂
        exact congrArg (a :: ·) (ih h₁ h₂)
      · simp [charsLt, hab] at h₂

theorem charsLt_asymm : ∀ {l₁ l₂ : List Char},
    charsLt l₁ l₂ = true → charsLt l₂ l₁ = false := by
  intro l₁
  induction l₁ with
  | nil =>
    intro l₂ h₁
    cases l₂ with
    | nil => simp [charsLt] at h₁
    | cons b bs => simp [charsLt]
  | cons a as ih =>
    intro l₂ h₁
    cases l₂ with
    | nil => simp [charsLt] at h₁
    | cons b bs =>
      rcases lt_trichotomy a b with hab | hab | hab
      · simp [charsLt, hab, asymm hab]
      · subst hab
        simp [charsLt, lt_irrefl] at h₁ ⊢
        exact ih h₁
      · simp [charsLt, hab, asymm hab] at h₁

theorem charsLt_trans : ∀ {l₁ l₂ l₃ : List Char},
    charsLt l₁ l₂ = true → charsLt l₂ l₃ = true → charsLt l₁ l₃ = true := by
  intro l₁
  induction l₁ with
  | nil =>
    intro l₂ l₃ h₁ h₂
    cases l₂ with
    | nil => simp [charsLt] at h₁
    | cons b bs =>
      cases l₃ with
      | nil => simp [charsLt] at h₂
      | cons c cs => simp [charsLt]
  | cons a as ih =>
    intro l₂ l₃ h₁ h₂
    cases l₂ with
    | nil => simp [charsLt] at h₁
    | cons b bs =>
      cases l₃ with
      | nil => simp [charsLt] at h₂
      | cons c cs =>
        rcases lt_trichotomy a b with hab | hab | hab
        · rcases lt_trichotomy b c with hbc | hbc | hbc
          · simp [charsLt, lt_trans hab hbc]
          · subst hbc
            simp [charsLt, hab]
          · simp [charsLt, hbc, asymm hbc] at h₂
        · subst hab
          rcases lt_trichotomy a c with hac | hac | hac
          · simp [charsLt, hac]
          · subst hac
            simp [charsLt, lt_irrefl] at h₁ h₂ ⊢
            exact ih h₁ h₂
          · simp [charsLt, hac, asymm hac] at h₂
        · simp [charsLt, hab, asymm hab] at h₁

theorem strLtB_eq_of_not {a b : String} (h₁ : strLtB a b = false)
    (h₂ : strLtB b a = false) : a = b := by
  cases a with
  | mk da =>
    cases b with
    | mk db =>
      exact congrArg String.mk (charsLt_eq_of_not h₁ h₂)

theorem strLtB_asymm {a b : String} (h : strLtB a b = true) : strLtB b a = false :=
  charsLt_asymm h

theorem strLtB_trans {a b c : String} (h₁ : strLtB a b = true)
    (h₂ : strLtB b c = true) : strLtB a c = true :=
  charsLt_trans h₁ h₂

theorem strLtB_irrefl (a : String) : strLtB a a = false :=
  charsLt_irrefl a.data

theorem tupleLe_total : ∀ a b : List String, tupleLe a b = true ∨ tupleLe b a = true := by
  intro a
  induction a with
  | nil =>
    intro b
    left
    rfl
  | cons x xs ih =>
    intro b
    cases b with
    | nil =>
      right
      rfl
    | cons y ys =>
      cases hxy : strLtB x y with
      | true =>
        left
        simp [tupleLe, hxy]
      | false =>
        cases hyx : strLtB y x with
        | true =>
          right
          simp [tupleLe, hyx]
        | false =>
          rcases ih ys with h | h
          · left
            simp [tupleLe, hxy, hyx, h]
          · right
            simp [tupleLe, hxy, hyx, h]

theorem tupleLe_antisymm : ∀ {a b : List String},
    tupleLe a b = true → tupleLe b a = true → a = b := by
  intro a
  induction a with
  | nil =>
    intro b _ h₂
    cases b with
    | nil => rfl
    | cons y ys => simp [tupleLe] at h₂
  | cons x xs ih =>
    intro b h₁ h₂
    cases b with
    | nil => simp [tupleLe] at h₁
    | cons y ys =>
      cases hxy : strLtB x y with
      | true => simp [tupleLe, strLtB_asymm hxy, hxy] at h₂
      | false =>
        cases hyx : strLtB y x with
        | true => simp [tupleLe, strLtB_asymm hyx, hyx] at h₁
        | false =>
          have hx : x = y := strLtB_eq_of_not hxy hyx
          subst hx
          simp [tupleLe, hxy] at h₁ h₂
          exact congrArg (x :: ·) (ih h₁ h₂)

theorem tupleLe_trans : ∀ {a b c : List String},
    tupleLe a b = true → tupleLe b c = true → tupleLe a c = true := by
  intro a
  induction a with
  | nil =>
    intro b c _ _
    rfl
  | cons x xs ih =>
    intro b c h₁ h₂
    cases b with
    | nil => simp [tupleLe] at h₁
    | cons y ys =>
      cases c with
      | nil => simp [tupleLe] at h₂
      | cons z zs =>
        cases hxy : strLtB x y with
        | true =>
          cases hyz : strLtB y z with
          | true => simp [tupleLe, strLtB_trans hxy hyz]
          | false =>
            cases hzy : strLtB z y with
            | true => simp [tupleLe, hyz, hzy] at h₂
            | false =>
              have : y = z := strLtB_eq_of_not hyz hzy
              subst this
              simp [tupleLe, hxy]
        | false =>
          cases hyx : strLtB y x with
          | true => simp [tupleLe, hxy, hyx] at h₁
          | false =>
            have hx : x = y := strLtB_eq_of_not hxy hyx
            subst hx
            simp [tupleLe, hxy] at h₁
            cases hxz : strLtB x z with
            | true => simp [tupleLe, hxz]
            | false =>
              cases hzx : strLtB z x with
              | true => simp [tupleLe, hxz, hzx] at h₂
              | false =>
                have hx2 : x = z := strLtB_eq_of_not hxz hzx
                subst hx2
                simp [tupleLe, hxz] at h₂ ⊢
                exact ih h₁ h₂

theorem normGameRow_eq_rowOfKey (r : RawRow) : normGameRow r = rowOfKey (gameKey r) :=
  rfl

theorem normalizeGames_eq_of_keys_perm {cand base : List RawRow}
    (h : (cand.map gameKey).Perm (base.map gameKey)) :
    normalizeGames cand = normalizeGames base := by
  have hfun : normGameRow = fun r => rowOfKey (gameKey r) :=
    funext (fun r => normGameRow_eq_rowOfKey r)
  haveI : IsTotal RawRow (fun a b => tupleLe (gameKey a) (gameKey b) = true) :=
    ⟨fun a b => tupleLe_total (gameKey a) (gameKey b)⟩
  haveI : IsTrans RawRow (fun a b => tupleLe (gameKey a) (gameKey b) = true) :=
    ⟨fun _ _ _ hab hbc => tupleLe_trans hab hbc⟩
  have s₁ := List.sorted_insertionSort
    (fun a b => tupleLe (gameKey a) (gameKey b) = true) cand
  have s₂ := List.sorted_insertionSort
    (fun a b => tupleLe (gameKey a) (gameKey b) = true) base
  have s₁k : ((cand.insertionSort
      (fun a b => tupleLe (gameKey a) (gameKey b) = true)).map
      gameKey).Sorted (fun a b => tupleLe a b = true) :=
    List.Pairwise.map gameKey (fun _ _ hr => hr) s₁
  have s₂k : ((base.insertionSort
      (fun a b => tupleLe (gameKey a) (gameKey b) = true)).map
      gameKey).Sorted (fun a b => tupleLe a b = true) :=
    List.Pairwise.map gameKey (fun _ _ hr => hr) s₂
  have hperm : ((cand.insertionSort
      (fun a b => tupleLe (gameKey a) (gameKey b) = true)).map
      gameKey).Perm ((base.insertionSort
      (fun a b => tupleLe (gameKey a) (gameKey b) = true)).map gameKey) := by
    refine ((List.perm_insertionSort _ cand).map gameKey).trans ?_
    exact h.trans ((List.perm_insertionSort _ base).map gameKey).symm
  haveI : IsAntisymm (List String) (fun a b => tupleLe a b = true) :=
    ⟨fun _ _ ha hb => tupleLe_antisymm ha hb⟩
  have hkeys := List.eq_of_perm_of_sorted hperm s₁k s₂k
  calc normalizeGames cand
      = ((cand.insertionSort
          (fun a b => tupleLe (gameKey a) (gameKey b) = true)).map
          gameKey).map rowOfKey := by
        simp only [normalizeGames, hfun, List.map_map]
        rfl
    _ = ((base.insertionSort
          (fun a b => tupleLe (gameKey a) (gameKey b) = true)).map
          gameKey).map rowOfKey := by rw [hkeys]
    _ = normalizeGames base := by
        simp only [normalizeGames, hfun, List.map_map]
        rfl

theorem gameKey_eq_of_fields {c b : RawRow}
    (h : ∀ k ∈ GAME_KEY_FIELDS, rowGet c k = rowGet b k) : gameKey c = gameKey b := by
  have h1 := h "date_text" (by simp [GAME_KEY_FIELDS])
  have h2 := h "time" (by simp [GAME_KEY_FIELDS])
  have h3 := h "away" (by simp [GAME_KEY_FIELDS])
  have h4 := h "home" (by simp [GAME_KEY_FIELDS])
  have h5 := h "game_code" (by simp [GAME_KEY_FIELDS])
  have h6 := h "venue" (by simp [GAME_KEY_FIELDS])
  have h7 := h "game_url" (by simp [GAME_KEY_FIELDS])
  have h8 := h "away_score" (by simp [GAME_KEY_FIELDS])
  have h9 := h "home_score" (by simp [GAME_KEY_FIELDS])
  simp [gameKey, h1, h2, h3, h4, h5, h6, h7, h8, h9]

theorem map_gameKey_eq_of_forall₂ {l₁ l₂ : List RawRow}
    (hf : List.Forall₂ (fun c b => ∀ k ∈ GAME_KEY_FIELDS, rowGet c k = rowGet b k) l₁ l₂) :
    l₁.map gameKey = l₂.map gameKey := by
  induction hf with
  | nil => rfl
  | cons hcb _ ih => simp [List.map_cons, gameKey_eq_of_fields hcb, ih]

/-- C1: the Change-Detection Gate normalizes candidate and baseline by
blanking `scraped_at`, trimming every field and sorting by the content key;
byte-identical normalized files keep the baseline untouched, any other
outcome promotes the candidate.  In particular a candidate that is a
reordering of the baseline in which only `scraped_at` values changed always
leaves the baseline in place. -/
theorem changeGate_keeps_baseline_on_volatile_change
    (cand base cand₂ : List RawRow) :
    (cand.Perm cand₂ →
      List.Forall₂ (fun c b => ∀ k ∈ GAME_KEY_FIELDS, rowGet c k = rowGet b k) cand₂ base →
      gameGate cand base = base)
    ∧ (normalizeGames cand = normalizeGames base → gameGate cand base = base)
    ∧ (normalizeGames cand ≠ normalizeGames base → gameGate cand base = cand) := by
  refine ⟨?_, ?_, ?_⟩
  · intro hp hf
    have hmap : cand₂.map gameKey = base.map gameKey := map_gameKey_eq_of_forall₂ hf
    have hkp : (cand.map gameKey).Perm (base.map gameKey) := by
      have := hp.map gameKey
      rw [hmap] at this
      exact this
    have := normalizeGames_eq_of_keys_perm hkp
    simp [gameGate, this]
  · intro hn
    simp [gameGate, hn]
  · intro hn
    simp [gameGate, hn]

/-- Witness for C1 at a concrete two-row extract: the re-scrape shuffled the
row order and changed only the `scraped_at` values, and the gate keeps the
baseline file untouched. -/
theorem changeGate_keeps_baseline_on_volatile_change_witness :
    gameGate [rawRowB2, rawRowA2] [rawRowA, rawRowB] = [rawRowA, rawRowB] :=
  (changeGate_keeps_baseline_on_volatile_change [rawRowB2, rawRowA2]
    [rawRowA, rawRowB] [rawRowA2, rawRowB2]).1 (by decide)
    (List.Forall₂.cons (by decide) (List.Forall₂.cons (by decide) List.Forall₂.nil))

/-- C2 counterexample: in `scripts/update_data.sh` the `exports/*.csv` glob is
unguarded (no `nullglob`, no emptiness check), so with zero extract CSV files
present the combiner is still invoked — handed the literal unexpanded
pattern — rather than the run failing before the invocation. -/
theorem zeroExtracts_plain_script_invokes_combiner :
    plainCombineStep [] = Except.ok ["exports/*.csv"]
    ∧ plainCombineStep [] ≠ Except.error 1 :=
  ⟨rfl, fun h => Except.noConfusion h⟩

/-- C2 amended: in the gated update script, zero extract CSV files make the
combine step exit with status 1 before invoking the combiner (and any
non-empty file list is passed through to it); `scripts/update_data.sh`
instead always invokes the combiner, on the unexpanded glob pattern when
nothing matched. -/
theorem gated_zero_extracts_abort (files : List String) :
    gatedCombineStep [] = Except.error 1
    ∧ (files ≠ [] → gatedCombineStep files = Except.ok files)
    ∧ plainCombineStep files = Except.ok (plainGlobExpand files "exports/*.csv") := by
  refine ⟨rfl, ?_, rfl⟩
  intro h
  rw [gatedCombineStep, if_neg]
  simpa using h

/-- Witness for C2 (amended) at a one-file extract directory. -/
theorem gated_zero_extracts_abort_witness :
    gatedCombineStep ["exports/2025-10.csv"] = Except.ok ["exports/2025-10.csv"] :=
  (gated_zero_extracts_abort ["exports/2025-10.csv"]).2.1 (by decide)

/-- C3: for a parseable month/day fragment, the resolver assigns the season
start year to months October through December (month number at least 10) and
the following calendar year to every month numerically below October, and the
resolved ISO date carries exactly that year. -/
theorem seasonYear_resolution (y m : Nat) (t : String) :
    (10 ≤ m → resolveSeasonYear y m = y)
    ∧ (m < 10 → resolveSeasonYear y m = y + 1)
    ∧ (∀ d, parseFragment t = some (m, d) →
        resolveDateIso y t =
          some (toString (resolveSeasonYear y m) ++ "-" ++ twoDigit m ++ "-" ++
            twoDigit d)) := by
  refine ⟨?_, ?_, ?_⟩
  · intro h
    simp [resolveSeasonYear, h]
  · intro h
    rw [resolveSeasonYear, if_neg]
    omega
  · intro d h
    simp [resolveDateIso, h]

/-- Witness for C3 at the spec's examples: December resolves inside the
season start year, January into the following year. -/
theorem seasonYear_resolution_witness :
    resolveSeasonYear 2025 12 = 2025 ∧ resolveSeasonYear 2025 1 = 2026
    ∧ resolveDateIso 2025 "Dec 03 (Wed)" = some "2025-12-03"
    ∧ resolveDateIso 2025 "Jan 15 (Thu)" = some "2026-01-15" := by
  refine ⟨(seasonYear_resolution 2025 12 "").1 (by decide),
          (seasonYear_resolution 2025 1 "").2.1 (by decide), ?_, ?_⟩
  · rw [(seasonYear_resolution 2025 12 "Dec 03 (Wed)").2.2 3 (by decide)]
    decide
  · rw [(seasonYear_resolution 2025 1 "Jan 15 (Thu)").2.2 15 (by decide)]
    decide

/-! ### Deduplicator lemmas -/

theorem rankOf_inj {a b : GameRecord} (h : rankOf a = rankOf b) : a = b := by
  cases a
  cases b
  simp only [rankOf, List.cons.injEq, and_true] at h
  obtain ⟨-, h1, h2, h3, h4, h5, h6, h7, h8, h9, h10, h11⟩ := h
  subst h1 h2 h3 h4 h5 h6 h7 h8 h9 h10 h11
  rfl

theorem pick_comm (a b : GameRecord) : pick a b = pick b a := by
  by_cases h1 : tupleLe (rankOf a) (rankOf b) = true
  · by_cases h2 : tupleLe (rankOf b) (rankOf a) = true
    · have hab : a = b := rankOf_inj (tupleLe_antisymm h1 h2)
      subst hab
      rfl
    · simp [pick, h1, h2]
  · have h2 : tupleLe (rankOf b) (rankOf a) = true := by
      rcases tupleLe_total (rankOf a) (rankOf b) with h | h
      · exact absurd h h1
      · exact h
    simp [pick, h1, h2]

theorem pick_rightcomm (c a b : GameRecord) :
    pick (pick c a) b = pick (pick c b) a := by
  by_cases hca : tupleLe (rankOf c) (rankOf a) = true
  · by_cases hcb : tupleLe (rankOf c) (rankOf b) = true
    · have e1 : pick c a = a := by simp [pick, hca]
      have e2 : pick c b = b := by simp [pick, hcb]
      rw [e1, e2, pick_comm]
    · have e1 : pick c a = a := by simp [pick, hca]
      have e2 : pick c b = c := by simp [pick, hcb]
      have hab : ¬ tupleLe (rankOf a) (rankOf b) = true := fun h =>
        hcb (tupleLe_trans hca h)
      have e3 : pick a b = a := by simp [pick, hab]
      rw [e1, e2, e3, e1]
  · by_cases hcb : tupleLe (rankOf c) (rankOf b) = true
    · have e1 : pick c a = c := by simp [pick, hca]
      have e2 : pick c b = b := by simp [pick, hcb]
      have hba : ¬ tupleLe (rankOf b) (rankOf a) = true := fun h =>
        hca (tupleLe_trans hcb h)
      have e3 : pick b a = b := by simp [pick, hba]
      rw [e1, e2, e3]
    · have e1 : pick c a = c := by simp [pick, hca]
      have e2 : pick c b = c := by simp [pick, hcb]
      rw [e1, e2, e1]

theorem pickO_rightcomm (o : Option GameRecord) (a b : GameRecord) :
    pickO (pickO o a) b = pickO (pickO o b) a := by
  cases o with
  | none => simp [pickO, pick_comm a b]
  | some c => simp [pickO, pick_rightcomm c a b]

theorem bestFor_eq_of_perm {l₁ l₂ : List GameRecord} (h : l₁.Perm l₂) :
    bestFor l₁ = bestFor l₂ := by
  funext k
  haveI : RightCommutative pickO := ⟨fun o a b => pickO_rightcomm o a b⟩
  exact List.Perm.foldl_eq (h.filter _) none

theorem dedupRecords_pair {a b : GameRecord} (hk : identKey a = identKey b) :
    dedupRecords [a, b] = [pick a b] := by
  have hmem : identKey a ∈ [identKey b] := by simp [hk]
  simp [dedupRecords, List.dedup_cons_of_mem hmem, bestFor, pickO, hk,
    List.filterMap]

theorem pick_prefers_played {a b : GameRecord} (ha : playedB a = true)
    (hb : playedB b = false) : pick a b = a ∧ pick b a = a := by
  have h10 : strLtB "1" "0" = false := by decide
  have h01 : strLtB "0" "1" = true := by decide
  have hle : tupleLe (rankOf a) (rankOf b) = false := by
    simp [rankOf, ha, hb, tupleLe, h10, h01]
  have hle2 : tupleLe (rankOf b) (rankOf a) = true := by
    simp [rankOf, ha, hb, tupleLe, h01]
  constructor
  · simp [pick, hle]
  · simp [pick, hle2]

theorem pick_prefers_later {a b : GameRecord} (hp : playedB a = playedB b)
    (hs : strLtB a.scraped_at b.scraped_at = true) :
    pick a b = b ∧ pick b a = b := by
  have hle : tupleLe (rankOf a) (rankOf b) = true := by
    simp [rankOf, hp, tupleLe, strLtB_irrefl, hs]
  have hle2 : tupleLe (rankOf b) (rankOf a) = false := by
    simp [rankOf, hp, tupleLe, strLtB_irrefl, strLtB_asymm hs, hs]
  constructor
  · simp [pick, hle]
  · simp [pick, hle2]

/-- C4: for two duplicates of one identity (same non-blank `game_url` or same
fallback tuple), the merged result keeps the record with non-blank scores over
the one with blank scores in either input order, and on equal completeness it
keeps the record with the lexicographically later `scraped_at`; score data
never regresses to blank. -/
theorem dedup_merge_policy (a b : GameRecord) (hk : identKey a = identKey b) :
    (playedB a = true → playedB b = false →
      dedupRecords [a, b] = [a] ∧ dedupRecords [b, a] = [a])
    ∧ (playedB a = playedB b → strLtB a.scraped_at b.scraped_at = true →
      dedupRecords [a, b] = [b] ∧ dedupRecords [b, a] = [b]) := by
  constructor
  · intro ha hb
    have h := pick_prefers_played ha hb
    rw [dedupRecords_pair hk, dedupRecords_pair hk.symm, h.1, h.2]
    exact ⟨rfl, rfl⟩
  · intro hp hs
    have h := pick_prefers_later hp hs
    rw [dedupRecords_pair hk, dedupRecords_pair hk.symm, h.1, h.2]
    exact ⟨rfl, rfl⟩

/-- Witness for C4: one upcoming scrape and one later scrape with final
scores of the same `game_url` merge to the scored record in both orders. -/
theorem dedup_merge_policy_witness :
    dedupRecords [recFinal, recUpcoming] = [recFinal]
    ∧ dedupRecords [recUpcoming, recFinal] = [recFinal] :=
  (dedup_merge_policy recFinal recUpcoming (by decide)).1 (by decide) (by decide)

/-- C6: the Deduplicator is order-insensitive — permuting the input records
(any ordering of extracts and of rows) yields the same output set; the merge
depends only on the set of inputs and the rank-based tie-break. -/
theorem dedup_order_insensitive {l₁ l₂ : List GameRecord} (h : l₁.Perm l₂) :
    (dedupRecords l₁).Perm (dedupRecords l₂) := by
  rw [dedupRecords, dedupRecords, bestFor_eq_of_perm h]
  exact List.Perm.filterMap (bestFor l₂) ((h.map identKey).dedup)

/-- Witness for C6 at a concrete two-record shuffle. -/
theorem dedup_order_insensitive_witness :
    (dedupRecords [recUpcoming, recFinal]).Perm (dedupRecords [recFinal, recUpcoming]) :=
  dedup_order_insensitive (by decide)

/-! ### Sort comparator lemmas -/

theorem cmpGames_bb {a b : GameRecord} (ha : trimStr a.game_date_iso = "")
    (hb : trimStr b.game_date_iso = "") : cmpGames a b = 0 := by
  simp [cmpGames, ha, hb]

theorem cmpGames_bd {a b : GameRecord} (ha : trimStr a.game_date_iso = "")
    (hb : trimStr b.game_date_iso ≠ "") : cmpGames a b = 1 := by
  simp [cmpGames, ha, hb]

theorem cmpGames_db {a b : GameRecord} (ha : trimStr a.game_date_iso ≠ "")
    (hb : trimStr b.game_date_iso = "") : cmpGames a b = -1 := by
  simp [cmpGames, ha, hb]

theorem cmpGames_dd_ne {a b : GameRecord} (ha : trimStr a.game_date_iso ≠ "")
    (hb : trimStr b.game_date_iso ≠ "")
    (hne : trimStr a.game_date_iso ≠ trimStr b.game_date_iso) :
    cmpGames a b =
      (if strLtB (trimStr a.game_date_iso) (trimStr b.game_date_iso) then -1 else 1) := by
  simp [cmpGames, ha, hb, hne]

theorem cmpGames_dd_eq {a b : GameRecord} (_ha : trimStr a.game_date_iso ≠ "")
    (hb : trimStr b.game_date_iso ≠ "")
    (he : trimStr a.game_date_iso = trimStr b.game_date_iso) :
    cmpGames a b =
      (if strLtB (trimStr a.time) (trimStr b.time) then -1
       else if strLtB (trimStr b.time) (trimStr a.time) then 1 else 0) := by
  simp [cmpGames, hb, he]

theorem gameLeB_blank {a b : GameRecord} (ha : trimStr a.game_date_iso = "")
    (h : gameLeB a b = true) : trimStr b.game_date_iso = "" := by
  by_cases hb : trimStr b.game_date_iso = ""
  · exact hb
  · simp [gameLeB, cmpGames_bd ha hb] at h

theorem gameLeB_dd_ne_lt {a b : GameRecord} (ha : trimStr a.game_date_iso ≠ "")
    (hb : trimStr b.game_date_iso ≠ "")
    (hne : trimStr a.game_date_iso ≠ trimStr b.game_date_iso)
    (h : gameLeB a b = true) :
    strLtB (trimStr a.game_date_iso) (trimStr b.game_date_iso) = true := by
  cases hx : strLtB (trimStr a.game_date_iso) (trimStr b.game_date_iso)
  · simp [gameLeB, cmpGames_dd_ne ha hb hne, hx] at h
  · rfl

theorem gameLeB_dd_eq_time {a b : GameRecord} (ha : trimStr a.game_date_iso ≠ "")
    (hb : trimStr b.game_date_iso ≠ "")
    (he : trimStr a.game_date_iso = trimStr b.game_date_iso)
    (h : gameLeB a b = true) :
    strLtB (trimStr b.time) (trimStr a.time) = false := by
  cases hx : strLtB (trimStr b.time) (trimStr a.time)
  · rfl
  · simp [gameLeB, cmpGames_dd_eq ha hb he, hx, strLtB_asymm hx] at h

theorem gameLeB_total (a b : GameRecord) : gameLeB a b = true ∨ gameLeB b a = true := by
  by_cases ha : trimStr a.game_date_iso = ""
  · by_cases hb : trimStr b.game_date_iso = ""
    · left
      simp [gameLeB, cmpGames_bb ha hb]
    · right
      simp [gameLeB, cmpGames_db hb ha]
  · by_cases hb : trimStr b.game_date_iso = ""
    · left
      simp [gameLeB, cmpGames_db ha hb]
    · by_cases he : trimStr a.game_date_iso = trimStr b.game_date_iso
      · by_cases ht : strLtB (trimStr b.time) (trimStr a.time) = true
        · right
          simp [gameLeB, cmpGames_dd_eq hb ha he.symm, ht]
        · left
          have ht' : strLtB (trimStr b.time) (trimStr a.time) = false := by
            simpa using ht
          cases hat : strLtB (trimStr a.time) (trimStr b.time) <;>
            simp [gameLeB, cmpGames_dd_eq ha hb he, hat, ht']
      · by_cases hlt : strLtB (trimStr a.game_date_iso) (trimStr b.game_date_iso) = true
        · left
          simp [gameLeB, cmpGames_dd_ne ha hb he, hlt]
        · right
          have hlt' : strLtB (trimStr a.game_date_iso) (trimStr b.game_date_iso) = false := by
            simpa using hlt
          have hba : strLtB (trimStr b.game_date_iso) (trimStr a.game_date_iso) = true := by
            cases hx : strLtB (trimStr b.game_date_iso) (trimStr a.game_date_iso)
            · exact absurd (strLtB_eq_of_not hlt' hx) he
            · rfl
          simp [gameLeB, cmpGames_dd_ne hb ha (Ne.symm he), hba]

theorem gameLeB_trans {a b c : GameRecord} (hab : gameLeB a b = true)
    (hbc : gameLeB b c = true) : gameLeB a c = true := by
  by_cases ha : trimStr a.game_date_iso = ""
  · have hb := gameLeB_blank ha hab
    have hc := gameLeB_blank hb hbc
    simp [gameLeB, cmpGames_bb ha hc]
  · by_cases hc : trimStr c.game_date_iso = ""
    · simp [gameLeB, cmpGames_db ha hc]
    · by_cases hb : trimStr b.game_date_iso = ""
      · simp [gameLeB, cmpGames_bd hb hc] at hbc
      · by_cases hAB : trimStr a.game_date_iso = trimStr b.game_date_iso
        · by_cases hBC : trimStr b.game_date_iso = trimStr c.game_date_iso
          · have hAC : trimStr a.game_date_iso = trimStr c.game_date_iso :=
              hAB.trans hBC
            have h1 := gameLeB_dd_eq_time ha hb hAB hab
            have h2 := gameLeB_dd_eq_time hb hc hBC hbc
            have h3 : strLtB (trimStr c.time) (trimStr a.time) = false := by
              cases h3 : strLtB (trimStr c.time) (trimStr a.time)
              · rfl
              · cases hat : strLtB (trimStr a.time) (trimStr b.time)
                · have heq := strLtB_eq_of_not hat h1
                  rw [heq] at h3
                  rw [h2] at h3
                  exact h3.symm
                · have hcb := strLtB_trans h3 hat
                  rw [h2] at hcb
                  exact hcb.symm
            cases hat : strLtB (trimStr a.time) (trimStr c.time) <;>
              simp [gameLeB, cmpGames_dd_eq ha hc hAC, hat, h3]
          · have hBC' := gameLeB_dd_ne_lt hb hc hBC hbc
            have hAClt : strLtB (trimStr a.game_date_iso) (trimStr c.game_date_iso) = true := by
              rw [hAB]
              exact hBC'
            have hAC : trimStr a.game_date_iso ≠ trimStr c.game_date_iso := by
              intro h
              rw [h] at hAClt
              rw [strLtB_irrefl] at hAClt
              exact Bool.false_ne_true hAClt
            simp [gameLeB, cmpGames_dd_ne ha hc hAC, hAClt]
        · have hAB' := gameLeB_dd_ne_lt ha hb hAB hab
          by_cases hBC : trimStr b.game_date_iso = trimStr c.game_date_iso
          · have hAClt : strLtB (trimStr a.game_date_iso) (trimStr c.game_date_iso) = true := by
              rw [← hBC]
              exact hAB'
            have hAC : trimStr a.game_date_iso ≠ trimStr c.game_date_iso := by
              intro h
              rw [h] at hAClt
              rw [strLtB_irrefl] at hAClt
              exact Bool.false_ne_true hAClt
            simp [gameLeB, cmpGames_dd_ne ha hc hAC, hAClt]
          · have hBC' := gameLeB_dd_ne_lt hb hc hBC hbc
            have hAClt := strLtB_trans hAB' hBC'
            have hAC : trimStr a.game_date_iso ≠ trimStr c.game_date_iso := by
              intro h
              rw [h] at hAClt
              rw [strLtB_irrefl] at hAClt
              exact Bool.false_ne_true hAClt
            simp [gameLeB, cmpGames_dd_ne ha hc hAC, hAClt]

/-- C5: the sorted games sequence (used by the games API and, per the spec,
for the canonical combined output) is a permutation of its input ordered
ascending by `game_date_iso` with ties broken by the raw time string, and
every record with a blank/unresolvable `game_date_iso` comes after all
records that have one. -/
theorem sortGames_ordering (l : List GameRecord) :
    (sortGames l).Perm l
    ∧ (sortGames l).Pairwise (fun a b =>
        (trimStr a.game_date_iso = "" → trimStr b.game_date_iso = "")
        ∧ (trimStr a.game_date_iso ≠ "" → trimStr b.game_date_iso ≠ "" →
            strLtB (trimStr a.game_date_iso) (trimStr b.game_date_iso) = true
            ∨ (trimStr a.game_date_iso = trimStr b.game_date_iso
               ∧ strLtB (trimStr b.time) (trimStr a.time) = false))) := by
  constructor
  · exact List.perm_insertionSort _ l
  · haveI : IsTotal GameRecord (fun a b => gameLeB a b = true) :=
      ⟨fun a b => gameLeB_total a b⟩
    haveI : IsTrans GameRecord (fun a b => gameLeB a b = true) :=
      ⟨fun _ _ _ hab hbc => gameLeB_trans hab hbc⟩
    have hs := List.sorted_insertionSort (fun a b => gameLeB a b = true) l
    refine hs.imp ?_
    intro a b h
    constructor
    · intro ha
      exact gameLeB_blank ha h
    · intro ha hb
      by_cases he : trimStr a.game_date_iso = trimStr b.game_date_iso
      · exact Or.inr ⟨he, gameLeB_dd_eq_time ha hb he h⟩
      · exact Or.inl (gameLeB_dd_ne_lt ha hb he h)

/-- C7: the combine step overwrites the canonical output completely, so its
result does not depend on the previous canonical content, and two consecutive
runs on the same extract inputs produce byte-identical output; the JSON
conversion of an error-free parse is likewise a deterministic full overwrite. -/
theorem combine_idempotent (y : Nat) (extracts : List (List GameRecord))
    (prev₁ prev₂ : Option (List GameRecord)) :
    runCombineStep y extracts prev₁ = runCombineStep y extracts prev₂
    ∧ runCombineStep y extracts (some (runCombineStep y extracts prev₁))
        = runCombineStep y extracts prev₁
    ∧ csvToJson [] (runCombineStep y extracts prev₁)
        = Except.ok (runCombineStep y extracts prev₁) :=
  ⟨rfl, rfl, rfl⟩

/-- C8 counterexample: `csv_to_json.mjs` exits with status 1 as soon as the
parser reports any error, aborting the whole run instead of skipping the
malformed row, even though other valid rows were parsed. -/
theorem csvToJson_aborts_on_malformed_row :
    csvToJson ["Row 2: Too few fields"] [recUpcoming] = Except.error 1 :=
  rfl

/-- C8 amended: the normalization step tolerates malformed rows — every input
row yields exactly one output row and a missing column reads as the empty
string — but the CSV-to-JSON conversion aborts the entire run with exit
status 1 on any parse error rather than skipping only the offending row. -/
theorem malformed_row_handling (rows : List RawRow) (r : RawRow) (k : String)
    (errs : List String) (goodRows : List GameRecord) :
    (normalizeGames rows).length = rows.length
    ∧ (r.find? (fun p => p.1 = k) = none → rowGet r k = "")
    ∧ (errs ≠ [] → csvToJson errs goodRows = Except.error 1)
    ∧ csvToJson [] goodRows = Except.ok goodRows := by
  refine ⟨?_, ?_, ?_, rfl⟩
  · rw [normalizeGames, List.length_map]
    exact (List.perm_insertionSort _ rows).length_eq
  · intro h
    simp [rowGet, h]
  · intro h
    simp [csvToJson, h]

/-- Witness for C8 (amended): a one-row extract normalizes to one row, an
absent column reads empty, and a single parse error aborts the conversion. -/
theorem malformed_row_handling_witness :
    (normalizeGames [rawRowA]).length = 1
    ∧ rowGet [("scraped_at", "2025-11-01T09:00:00")] "venue" = ""
    ∧ csvToJson ["Row 2: Too few fields"] [recUpcoming] = Except.error 1 :=
  ⟨(malformed_row_handling [rawRowA] [] "" [] []).1,
   (malformed_row_handling [] [("scraped_at", "2025-11-01T09:00:00")] "venue" [] []).2.1
     (by decide),
   (malformed_row_handling [] [] "" ["Row 2: Too few fields"] [recUpcoming]).2.2.1
     (by decide)⟩

/-- C9: a GET request carrying neither `all=1` nor a non-blank `team` query
returns an empty games array and null `lastUpdated`, whatever the stored
dataset holds; with `all=1` the full dataset is returned (sorted). -/
theorem gamesApi_default_empty (dataset : List GameRecord)
    (teamParam allParam : Option String) :
    (trimStr (allParam.getD "") ≠ "1" → trimStr (teamParam.getD "") = "" →
      getGames dataset teamParam allParam = ⟨[], none⟩)
    ∧ (trimStr (allParam.getD "") = "1" →
      (getGames dataset teamParam allParam).games.Perm dataset) := by
  constructor
  · intro hall hteam
    simp [getGames, hall, hteam, sortGames, latestScrapedAt, List.insertionSort]
  · intro hall
    simp only [getGames, hall, if_true, if_pos]
    exact List.perm_insertionSort _ dataset

/-- Witness for C9: a non-empty dataset with no query parameters yields the
empty response. -/
theorem gamesApi_default_empty_witness :
    getGames [recUpcoming] none none = ⟨[], none⟩ :=
  (gamesApi_default_empty [recUpcoming] none none).1 (by decide) (by decide)

/-- C10: `loadStandings` never raises — a read failure or a file with at most
one non-empty line yields `[]`, and otherwise each non-empty non-header line
yields exactly one `StandingRow` whose fields are the trimmed cells at the
header's column index, with absent or out-of-range columns reading as the
empty string. -/
theorem loadStandings_total (raw e : String) (cols hdrs : List String)
    (c : String) :
    loadStandings (Except.error e) = []
    ∧ ((standLines raw).length ≤ 1 → loadStandings (Except.ok raw) = [])
    ∧ (∀ hd rest, standLines raw = hd :: rest → rest ≠ [] →
        loadStandings (Except.ok raw)
          = rest.map (fun line =>
              parseStandingRow (splitStr ',' line)
                ((splitStr ',' hd).map (fun v => lowerStr (trimStr v))))
        ∧ (loadStandings (Except.ok raw)).length = (standLines raw).length - 1)
    ∧ (hdrs.findIdx? (fun h => h = c) = none → getColValue cols hdrs c = "")
    ∧ (∀ i, hdrs.findIdx? (fun h => h = c) = some i →
        getColValue cols hdrs c = ((cols.get? i).map trimStr).getD "") := by
  refine ⟨rfl, ?_, ?_, ?_, ?_⟩
  · intro h
    rw [loadStandings]
    cases hsl : standLines raw with
    | nil => rfl
    | cons hd rest =>
      cases rest with
      | nil => simp
      | cons x xs =>
        rw [hsl] at h
        simp at h
  · intro hd rest hsl hne
    constructor
    · rw [loadStandings, hsl]
      simp [hne]
    · rw [loadStandings, hsl]
      simp [hne, hsl]
  · intro h
    simp [getColValue, h]
  · intro i h
    simp [getColValue, h]

/-- Witness for C10: a header-only file yields `[]`, a missing column reads
empty, and a two-line file yields one row. -/
theorem loadStandings_total_witness :
    loadStandings (Except.ok "scraped_at,team\n") = []
    ∧ getColValue ["2025"] ["scraped_at", "team"] "team" = ""
    ∧ (loadStandings (Except.ok
        "scraped_at,team,gp,w,l,t,pts,gf,ga,l10,strk\n2025-11-01, Whitby Wildcats ,3,2,1,0,4,10,7,2-1-0,W2")).length = 1 :=
  ⟨(loadStandings_total "scraped_at,team\n" "" [] [] "").2.1 (by decide),
   (loadStandings_total "" "" ["2025"] ["scraped_at", "team"] "team").2.2.2.2 1
     (by decide),
   ((loadStandings_total
      "scraped_at,team,gp,w,l,t,pts,gf,ga,l10,strk\n2025-11-01, Whitby Wildcats ,3,2,1,0,4,10,7,2-1-0,W2"
      "" [] [] "").2.2.1 "scraped_at,team,gp,w,l,t,pts,gf,ga,l10,strk"
      ["2025-11-01, Whitby Wildcats ,3,2,1,0,4,10,7,2-1-0,W2"] (by decide)
      (by decide)).2⟩
